import Mathlib

/-!
Verification of the streamdeck-ui core (macro parser/executor, display dimmer,
action dispatcher) against its natural-language specification.

The definitions below are a shallow embedding of `src/streamdeck_ui/gui.py`:

* Python strings are modelled as `List Char` (code points); `str.split`,
  `str.strip`, `str.replace(" ", "")`, `str.lower`, `str.startswith` are
  reimplemented character-wise (ASCII case folding, ASCII whitespace).
* `float(s)` is modelled as an exact decimal/exponent parser into `ℚ`
  (`parseFloat`); non-finite literals (`inf`, `nan`) and PEP-515 underscores
  are outside the model and treated as unparseable.
* Qt timers carry no behaviour of their own here: a timer slot is `Option Bool`
  where `none` is Python `None`, `some true` an active timer object and
  `some false` a stopped timer object.  A single-shot timer may fire exactly
  when it is `some true`.
* Side effects (process spawn, key press/release, sleeping, typing, device
  brightness calls, page switching, dimmer brightness callbacks) are recorded
  as an `Attempt` trace.  A call wrapped in the source by `try: ... except:
  print(...)` is recorded as an attempt unconditionally: its failure only
  prints and cannot alter control flow or state.  The only externally fallible
  calls whose failure *does* alter control flow or state are
  `api.change_brightness`, `api.get_brightness` (both inside one `try` block)
  and `api.set_page` (not wrapped at all); those consult an `Oracle`.
-/

abbrev Str := List Char

/-- ASCII whitespace recognised by Python's `str.strip()` (restricted to the
ASCII subset; the source strings come from config text). -/
def isPyWS (c : Char) : Bool :=
  c = ' ' ∨ c = '\t' ∨ c = '\n' ∨ c = '\r' ∨ c = '\x0b' ∨ c = '\x0c'

/-- Python `s.strip()`. -/
def pyStrip (s : Str) : Str :=
  ((s.dropWhile isPyWS).reverse.dropWhile isPyWS).reverse

/-- Python `s.replace(" ", "")`: removes every space character. -/
def removeSpaces (s : Str) : Str := s.filter (fun c => c ≠ ' ')

/-- Python `s.split(sep)` for a single-character separator: keeps empty
segments, `"".split(sep) = [""]`. -/
def pySplit (sep : Char) : Str → List Str
  | [] => [[]]
  | c :: rest =>
    match pySplit sep rest with
    | [] => [[]]
    | s :: ss => if c = sep then [] :: s :: ss else (c :: s) :: ss

/-- Python `s.lower()` (ASCII case folding, as in `Char.toLower`). -/
def lowerStr (s : Str) : Str := s.map Char.toLower

/-- Value of a digit string, most significant first. -/
def digitsToNat (ds : Str) : Nat := ds.foldl (fun a c => a * 10 + (c.toNat - 48)) 0

/-- Parses the optional exponent suffix `[eE][+-]?digits` followed only by
trailing whitespace; returns the exponent (`0` when absent), `none` on junk. -/
def parseExpPart : Str → Option Int
  | [] => some 0
  | c :: t =>
    if c = 'e' ∨ c = 'E' then
      match t with
      | '+' :: r =>
        if r.takeWhile Char.isDigit = [] then none
        else if (r.dropWhile Char.isDigit).all isPyWS then
          some (digitsToNat (r.takeWhile Char.isDigit) : Int)
        else none
      | '-' :: r =>
        if r.takeWhile Char.isDigit = [] then none
        else if (r.dropWhile Char.isDigit).all isPyWS then
          some (-(digitsToNat (r.takeWhile Char.isDigit) : Int))
        else none
      | r =>
        if r.takeWhile Char.isDigit = [] then none
        else if (r.dropWhile Char.isDigit).all isPyWS then
          some (digitsToNat (r.takeWhile Char.isDigit) : Int)
        else none
    else if (c :: t).all isPyWS then some 0 else none

/-- The exact rational value `m · 10 ^ exp` of a decimal mantissa and
exponent. -/
def decToRat (m : Int) (exp : Int) : ℚ :=
  if 0 ≤ exp then mkRat (m * ((10 ^ exp.toNat : Nat) : Int)) 1
  else mkRat m (10 ^ (-exp).toNat)

/-- Python `float(s)` on finite decimal notation, as an exact rational:
`[ws][+-]?(digits[.digits*]?|.digits)([eE][+-]?digits)?[ws]`.  `none` models
`float` raising `ValueError`. -/
def parseFloat (s : Str) : Option ℚ :=
  let s1 := s.dropWhile isPyWS
  let sgn : Int := match s1 with | '-' :: _ => -1 | _ => 1
  let s2 : Str := match s1 with | '-' :: r => r | '+' :: r => r | r => r
  let ip := s2.takeWhile Char.isDigit
  let s3 := s2.dropWhile Char.isDigit
  match s3 with
  | '.' :: r =>
    let fp := r.takeWhile Char.isDigit
    let s4 := r.dropWhile Char.isDigit
    if ip = [] ∧ fp = [] then none
    else
      match parseExpPart s4 with
      | none => none
      | some e =>
        some (decToRat
          (sgn * ((digitsToNat ip * 10 ^ fp.length + digitsToNat fp : Nat) : Int))
          (e - fp.length))
  | _ =>
    if ip = [] then none
    else
      match parseExpPart s3 with
      | none => none
      | some e => some (decToRat (sgn * (digitsToNat ip : Int)) e)

/-- The member names of `pynput.keyboard.Key`, the static name→key-code table
consulted by `getattr(Key, key_name.lower(), key_name)`. -/
def keyNames : List Str :=
  [ "alt", "alt_gr", "alt_l", "alt_r", "backspace", "caps_lock", "cmd",
    "cmd_l", "cmd_r", "ctrl", "ctrl_l", "ctrl_r", "delete", "down", "end",
    "enter", "esc", "f1", "f2", "f3", "f4", "f5", "f6", "f7", "f8", "f9",
    "f10", "f11", "f12", "f13", "f14", "f15", "f16", "f17", "f18", "f19",
    "f20", "home", "insert", "left", "media_next", "media_play_pause",
    "media_previous", "media_volume_down", "media_volume_mute",
    "media_volume_up", "menu", "num_lock", "page_down", "page_up", "pause",
    "print_screen", "right", "scroll_lock", "shift", "shift_l", "shift_r",
    "space", "tab", "up" ].map String.data

/-- A processed macro token: either a `pynput` `Key` enum member (stored by its
lowered name) or a plain string kept as-is (`getattr` fallback). -/
inductive Token where
  | key (name : Str)
  | str (s : Str)
deriving DecidableEq

/-- `gui._replace_special_keys`: `"plus"` → `+`, `"comma"` → `,`
(case-insensitively), and a token case-insensitively starting with `"delay"`
is lowered; anything else passes through unchanged. -/
def replaceSpecialKeys (k : Str) : Str :=
  if lowerStr k = "plus".data then "+".data
  else if lowerStr k = "comma".data then ",".data
  else if "delay".data.isPrefixOf (lowerStr k) then lowerStr k
  else k

/-- `getattr(Key, key_name.lower(), key_name)`: look the lowered name up in
the static `Key` table, falling back to the original string. -/
def getattrKey (k : Str) : Token :=
  if lowerStr k ∈ keyNames then Token.key (lowerStr k) else Token.str k

/-- Full per-token pipeline of `handle_keypress` lines 239-244. -/
def processKey (k : Str) : Token := getattrKey (replaceSpecialKeys k)

/-- The tokens of one comma-separated section: split on `+`, then process. -/
def sectionTokens (seg : Str) : List Token := (pySplit '+' seg).map processKey

/-- The executor's test `isinstance(key_name, str) and
key_name.startswith("delay")`. -/
def Token.isDelay : Token → Bool
  | .key _ => false
  | .str s => "delay".data.isPrefixOf s

/-- One observable side effect attempted by the dispatcher or executor. -/
inductive Attempt where
  | spawn (cmd : Str)
  | press (t : Token)
  | release (t : Token)
  | sleep (seconds : ℚ)
  | reportFloatError (arg : Str)
  | typeText (text : Str)
  | applyBrightness (delta : Int)
  | readBrightness
  | callback (level : Int)
  | setPage (device : Str) (page : Int)
deriving DecidableEq

/-- Handling of one delay token `s` (which starts with `"delay"`):
`sleep_time_arg = key_name.split("delay", 1)[1]` — under the `startswith`
guard this is `s.drop 5`.  Nonempty unparseable suffix prints an error and
uses 0; empty suffix defaults to 0.5; `time.sleep` runs only when the value
is truthy (nonzero). -/
def delayAttempts (s : Str) : List Attempt :=
  let arg := s.drop 5
  if arg ≠ [] then
    match parseFloat arg with
    | some q => if q ≠ 0 then [Attempt.sleep q] else []
    | none => [Attempt.reportFloatError arg]
  else [Attempt.sleep (mkRat 1 2)]

/-- Press-phase handling of one token (first `for key_name in section_keys`
loop): delay tokens sleep, every other token is pressed (failures are caught
and only printed). -/
def pressPhase : Token → List Attempt
  | .key n => [Attempt.press (Token.key n)]
  | .str s =>
    if "delay".data.isPrefixOf s then delayAttempts s
    else [Attempt.press (Token.str s)]

/-- Executing one section: the press loop over all tokens in order, then the
release loop over the non-delay tokens in the same order. -/
def execSection (toks : List Token) : List Attempt :=
  (toks.map pressPhase).flatten
    ++ (toks.filter (fun t => !t.isDelay)).map Attempt.release

/-- The whole macro-execution trace for a raw key spec:
`keys.strip().replace(" ", "")`, split on `,`, each section executed in
order. -/
def macroTrace (raw : Str) : List Attempt :=
  ((pySplit ',' (removeSpaces (pyStrip raw))).map
    (fun seg => execSection (sectionTokens seg))).flatten

/-- State of one `Dimmer` instance (class `Dimmer`, gui.py lines 64-149).
`timer`/`change_timer` model the `QTimer` slots: `none` is Python `None`,
`some b` a timer object whose `isActive()` is `b`. -/
structure Dimmer where
  timeout : Nat
  brightness : Int
  stopped : Bool
  dimmer_brightness : Int
  timer : Option Bool
  change_timer : Option Bool
deriving DecidableEq

/-- A freshly constructed `Dimmer(timeout, brightness, cb)`: the class-level
defaults give `__stopped = False`, `__dimmer_brightness = -1`, and both timer
slots `None`. -/
def dinit (timeout : Nat) (brightness : Int) : Dimmer :=
  { timeout := timeout, brightness := brightness, stopped := false,
    dimmer_brightness := -1, timer := none, change_timer := none }

/-- `Dimmer.reset`: clear `stopped`, stop both timers if present, start a new
single-shot idle timer when `timeout` is truthy, then restore brightness and
return `True` exactly when `__dimmer_brightness != brightness`.  The second
component lists the brightness-callback invocations. -/
def Dimmer.reset (d : Dimmer) : Dimmer × List Int × Bool :=
  let d1 : Dimmer :=
    { d with stopped := false,
             timer := d.timer.map (fun _ => false),
             change_timer := d.change_timer.map (fun _ => false) }
  let d2 : Dimmer := if d1.timeout ≠ 0 then { d1 with timer := some true } else d1
  if d2.dimmer_brightness ≠ d2.brightness then
    ({ d2 with dimmer_brightness := d2.brightness }, [d2.brightness], true)
  else (d2, [], false)

/-- `Dimmer.stop`: stop both timers, force brightness back to normal, mark
stopped. -/
def Dimmer.stop (d : Dimmer) : Dimmer × List Int :=
  let d1 : Dimmer :=
    { d with timer := d.timer.map (fun _ => false),
             change_timer := d.change_timer.map (fun _ => false) }
  ({ d1 with dimmer_brightness := d1.brightness, stopped := true }, [d1.brightness])

/-- `Dimmer.change_brightness` (one ramp tick): while `__dimmer_brightness`
is truthy, decrement it, fire the callback and schedule a fresh single-shot
10ms timer; at 0, drop the ramp timer (`None`). -/
def Dimmer.change_brightness (d : Dimmer) : Dimmer × List Int :=
  if d.dimmer_brightness ≠ 0 then
    ({ d with dimmer_brightness := d.dimmer_brightness - 1, change_timer := some true },
     [d.dimmer_brightness - 1])
  else ({ d with change_timer := none }, [])

/-- `Dimmer.dim(toggle)`: no-op while stopped; `toggle` at brightness 0 runs
`reset()`; otherwise, when the idle timer object exists and is active, stop it
and start dimming only if `__change_timer is None` and `__dimmer_brightness`
is truthy. -/
def Dimmer.dim (d : Dimmer) (toggle : Bool) : Dimmer × List Int :=
  if d.stopped then (d, [])
  else if toggle = true ∧ d.dimmer_brightness = 0 then ((d.reset).1, (d.reset).2.1)
  else if d.timer = some true then
    let d1 : Dimmer := { d with timer := some false }
    if d1.change_timer = none ∧ d1.dimmer_brightness ≠ 0 then d1.change_brightness
    else (d1, [])
  else (d, [])

/-- Events that can act on one `Dimmer`: its public operations plus the two
timer expirations.  A single-shot timer may fire only while it is active
(`some true`); firing first deactivates it, then runs `change_brightness`. -/
inductive DEvent where
  | reset
  | stop
  | dim (toggle : Bool)
  | tickIdle
  | tickRamp
deriving DecidableEq

/-- One step of the dimmer state machine: `none` when the event is not
enabled (a timer that is absent or inactive cannot fire). -/
def dstep (d : Dimmer) : DEvent → Option (Dimmer × List Int)
  | .reset => some ((d.reset).1, (d.reset).2.1)
  | .stop => some d.stop
  | .dim t => some (d.dim t)
  | .tickIdle =>
    if d.timer = some true then
      some (({ d with timer := some false } : Dimmer).change_brightness)
    else none
  | .tickRamp =>
    if d.change_timer = some true then
      some (({ d with change_timer := some false } : Dimmer).change_brightness)
    else none

/-- Reachability of a dimmer state from a start state by enabled events. -/
inductive DReach (s0 : Dimmer) : Dimmer → Prop where
  | refl : DReach s0 s0
  | step (d : Dimmer) (e : DEvent) (d' : Dimmer) (cs : List Int) :
      DReach s0 d → dstep d e = some (d', cs) → DReach s0 d'

/-- The button configuration the dispatcher reads for `(deck, page, key)`
from the `api` collaborator; `none`/empty/zero are Python-falsy and skip the
corresponding step. -/
structure ButtonConfig where
  command : Option Str
  keys : Option Str
  write : Option Str
  brightness_change : Option Int
  switch_page : Option Int
  target_device : Str
deriving DecidableEq

/-- Outcomes of the externally fallible calls whose failure alters control
flow or state: the brightness `try` block and the unguarded `set_page`. -/
structure Oracle where
  changeBrightnessOk : Bool
  getBrightness : Option Int
  setPageOk : Bool
deriving DecidableEq

/-- Step 3: `if command: try Popen(shlex.split(command)) except print`. -/
def cmdAttempts (cfg : ButtonConfig) : List Attempt :=
  match cfg.command with
  | some c => if c ≠ [] then [Attempt.spawn c] else []
  | none => []

/-- Step 4: `if keys:` parse and execute the macro. -/
def keysAttempts (cfg : ButtonConfig) : List Attempt :=
  match cfg.keys with
  | some ks => if ks ≠ [] then macroTrace ks else []
  | none => []

/-- Step 5: `if write: try keyboard.type(write) except print`. -/
def writeAttempts (cfg : ButtonConfig) : List Attempt :=
  match cfg.write with
  | some w => if w ≠ [] then [Attempt.typeText w] else []
  | none => []

/-- Step 6, gui.py lines 284-291: inside one `try` block,
`api.change_brightness`, then `api.get_brightness`, then assign the dimmer's
`brightness` and `reset()` it.  An exception from either api call skips the
rest of the block and is caught (printed). -/
def brightnessStep (cfg : ButtonConfig) (d : Dimmer) (o : Oracle) :
    Dimmer × List Attempt :=
  match cfg.brightness_change with
  | some bc =>
    if bc ≠ 0 then
      if o.changeBrightnessOk then
        match o.getBrightness with
        | some v =>
          let r := ({ d with brightness := v } : Dimmer).reset
          (r.1, [Attempt.applyBrightness bc, Attempt.readBrightness]
            ++ r.2.1.map Attempt.callback)
        | none => (d, [Attempt.applyBrightness bc, Attempt.readBrightness])
      else (d, [Attempt.applyBrightness bc])
    else (d, [])
  | none => (d, [])

/-- Step 7: `if switch_page: api.set_page(target_device, switch_page - 1)` —
not wrapped in any `try`. -/
def switchAttempts (cfg : ButtonConfig) : List Attempt :=
  match cfg.switch_page with
  | some sp => if sp ≠ 0 then [Attempt.setPage cfg.target_device (sp - 1)] else []
  | none => []

/-- Whether the dispatcher call raises: only a failing `api.set_page` can
escape, every other step's failure is caught. -/
def switchRaised (cfg : ButtonConfig) (o : Oracle) : Bool :=
  match cfg.switch_page with
  | some sp => if sp ≠ 0 then !o.setPageOk else false
  | none => false

/-- `gui.handle_keypress(deck_id, key, state)` for the one device's dimmer
`d`: returns the dimmer afterwards, the attempt trace, and whether an
exception escaped the call.  Key-up (`state = false`) does nothing; on
key-down, `dimmers[deck_id].reset()` returning `True` consumes the event. -/
def handle_keypress (cfg : ButtonConfig) (d : Dimmer) (o : Oracle)
    (state : Bool) : Dimmer × List Attempt × Bool :=
  if state then
    let r := d.reset
    if r.2.2 then (r.1, r.2.1.map Attempt.callback, false)
    else
      let b := brightnessStep cfg r.1 o
      (b.1,
       r.2.1.map Attempt.callback ++ cmdAttempts cfg ++ keysAttempts cfg
         ++ writeAttempts cfg ++ b.2 ++ switchAttempts cfg,
       switchRaised cfg o)
  else (d, [], false)

/-- C2: `reset()` cancels any pending idle timer and any in-flight ramp timer,
clears `stopped`, re-arms the single-shot idle timer iff `timeout > 0`, leaves
`timeout` and the normal `brightness` unchanged, and returns `true` exactly
when `__dimmer_brightness` differed from `brightness` at entry, in which case
it fires the callback once with `brightness`; afterwards `__dimmer_brightness`
always equals `brightness`. -/
theorem reset_contract (d : Dimmer) :
    ((d.reset).1.stopped = false)
    ∧ ((d.reset).1.timer = if 0 < d.timeout then some true
        else d.timer.map (fun _ => false))
    ∧ ((d.reset).1.change_timer = d.change_timer.map (fun _ => false))
    ∧ ((d.reset).1.timeout = d.timeout)
    ∧ ((d.reset).1.brightness = d.brightness)
    ∧ ((d.reset).1.dimmer_brightness = d.brightness)
    ∧ ((d.reset).2.2 = true ↔ d.dimmer_brightness ≠ d.brightness)
    ∧ ((d.reset).2.1 = if d.dimmer_brightness ≠ d.brightness
        then [d.brightness] else []) := by
  simp only [Dimmer.reset]
  split_ifs <;> simp_all

/-- C2 witness: the contract evaluated at a concrete dimmer that is mid-dim
(idle timer spent, ramp active, brightness below normal). -/
theorem reset_contract_w :
    let d : Dimmer := { timeout := 5, brightness := 50, stopped := false,
                        dimmer_brightness := 30, timer := some false,
                        change_timer := some true }
    ((d.reset).1.timer = some true) ∧ ((d.reset).1.change_timer = some false)
      ∧ ((d.reset).2.2 = true) ∧ ((d.reset).2.1 = [50]) := by
  intro d
  obtain ⟨-, h2, h3, -, -, -, h7, h8⟩ := reset_contract d
  refine ⟨?_, ?_, ?_, ?_⟩
  · rw [h2]; decide
  · rw [h3]; decide
  · rw [h7]; decide
  · rw [h8]; decide

/-- C9: on a freshly constructed dimmer with `normalBrightness` in 0–100, the
very first `reset()` returns `true` and fires the callback once with
`normalBrightness`, because `__dimmer_brightness` starts at the sentinel `-1`
rather than at `normalBrightness`. -/
theorem first_reset_wakes (t : Nat) (b : Int) (h0 : 0 ≤ b) (h1 : b ≤ 100) :
    (dinit t b).dimmer_brightness = -1
    ∧ ((dinit t b).reset).2.2 = true
    ∧ ((dinit t b).reset).2.1 = [b]
    ∧ ((dinit t b).reset).1.dimmer_brightness = b := by
  obtain ⟨-, -, -, -, -, h6, h7, h8⟩ := reset_contract (dinit t b)
  have hne : (dinit t b).dimmer_brightness ≠ (dinit t b).brightness := by
    simp only [dinit]
    omega
  refine ⟨rfl, h7.mpr hne, ?_, h6⟩
  rw [h8]
  simp only [dinit] at hne ⊢
  simp [hne]

/-- C9 witness at timeout 10 s, brightness 50. -/
theorem first_reset_wakes_w :
    ((dinit 10 50).reset).2.2 = true ∧ ((dinit 10 50).reset).2.1 = [50] :=
  ⟨(first_reset_wakes 10 50 (by decide) (by decide)).2.1,
   (first_reset_wakes 10 50 (by decide) (by decide)).2.2.1⟩

/-- C1: on a key-down event, when the device dimmer's `reset()` returns `true`
(the display was dimmed and is waking), `handle_keypress` performs none of the
other effects: the whole trace is the single wake callback — no spawn, no
macro press/release/sleep, no typing, no brightness change, no page switch —
no exception escapes, and the dimmer is left exactly as `reset()` left it. -/
theorem wake_consumes_keypress (cfg : ButtonConfig) (d : Dimmer) (o : Oracle)
    (h : d.dimmer_brightness ≠ d.brightness) :
    handle_keypress cfg d o true = ((d.reset).1, [Attempt.callback d.brightness], false) := by
  have h7 := (reset_contract d).2.2.2.2.2.2.1
  have h8 := (reset_contract d).2.2.2.2.2.2.2
  simp only [handle_keypress, if_pos (h7.mpr h), h8, if_pos h]
  simp

/-- C1 witness: a button with all five actions bound, on a dimmer currently
at the floor; the dispatcher stops after the wake. -/
theorem wake_consumes_keypress_w :
    handle_keypress
      { command := some "ls".data, keys := some "ctrl+a,delay1".data,
        write := some "hi".data, brightness_change := some 10,
        switch_page := some 2, target_device := "D2".data }
      { timeout := 5, brightness := 50, stopped := false,
        dimmer_brightness := 0, timer := none, change_timer := some true }
      { changeBrightnessOk := true, getBrightness := some 60, setPageOk := true }
      true
    = ({ timeout := 5, brightness := 50, stopped := false,
         dimmer_brightness := 50, timer := some true, change_timer := some false },
       [Attempt.callback 50], false) := by
  rw [wake_consumes_keypress _ _ _ (by decide)]
  decide

/-- The dimmer state reached by: `Dimmer(timeout=1, brightness=50)`;
`reset()`; the idle timer fires (one ramp tick runs); `reset()` again
(cancelling the ramp).  Its ramp-timer slot now holds a *stopped* timer
object, not `None`. -/
def dimAfterCancelledRamp : Dimmer :=
  let s1 := ((dinit 1 50).reset).1
  let s2 := ((dstep s1 DEvent.tickIdle).getD (s1, [])).1
  ((s2.reset)).1

/-- C3: in the state reached after a ramp was cancelled by `reset()` the idle
timer is pending, no ramp is running and brightness is nonzero, yet
`dim(False)` cancels the idle timer and does **not** begin ramping: the
brightness stays at 50, no callback fires, and the ramp-timer slot still holds
the stale stopped timer — because the code tests `__change_timer is None`
while `reset()` leaves a stopped (non-`None`) timer behind, contradicting the
code's own comment that the test checks for being "busy with dimming
already". -/
theorem dim_after_cancelled_ramp_eval :
    (dimAfterCancelledRamp.timer = some true
      ∧ dimAfterCancelledRamp.change_timer = some false
      ∧ dimAfterCancelledRamp.stopped = false
      ∧ dimAfterCancelledRamp.dimmer_brightness = 50)
    ∧ (dimAfterCancelledRamp.dim false
        = ({ dimAfterCancelledRamp with timer := some false }, []))
    ∧ (dimAfterCancelledRamp.dim false).1.dimmer_brightness = 50
    ∧ (dimAfterCancelledRamp.dim false).1.change_timer ≠ some true := by
  decide

/-- Configuration used by the C6 counterexample: only a page switch is
bound. -/
def switchOnlyCfg : ButtonConfig :=
  { command := none, keys := none, write := none, brightness_change := none,
    switch_page := some 2, target_device := "D2".data }

/-- Dimmer state for the dispatcher counterexamples: not dimmed, so the wake
step does not consume the event. -/
def idleDimmer : Dimmer :=
  { timeout := 0, brightness := 50, stopped := false, dimmer_brightness := 50,
    timer := none, change_timer := none }

/-- C6 counterexample: when `api.set_page` raises, the exception is *not*
caught at the page-switch step's boundary — it escapes `handle_keypress`
(third component `true`), so not every step's exception is caught as the
claim states. -/
theorem switch_page_exception_escapes :
    (handle_keypress switchOnlyCfg idleDimmer
      { changeBrightnessOk := true, getBrightness := some 50, setPageOk := false }
      true).2.2 = true := by
  decide

/-- C6 amended: for every key-down event not consumed as a wake, the
dispatcher attempts the five steps in the fixed order — the trace decomposes
into the command, macro, text, brightness and page-switch parts, each a
function only of its own step's configuration (and, for the brightness step,
its own oracle fields) — exceptions in the command, macro, text and
brightness steps are caught at their boundaries and never prevent a later
step, and the only exception that can escape the dispatcher is a failing
`api.set_page` in the final page-switch step, which has no later step to
prevent. -/
theorem dispatcher_step_isolation (cfg : ButtonConfig) (d : Dimmer)
    (o : Oracle) (h : d.dimmer_brightness = d.brightness) :
    handle_keypress cfg d o true
      = ((brightnessStep cfg (d.reset).1 o).1,
         cmdAttempts cfg ++ keysAttempts cfg ++ writeAttempts cfg
           ++ (brightnessStep cfg (d.reset).1 o).2 ++ switchAttempts cfg,
         switchRaised cfg o)
    ∧ (∀ sp, cfg.switch_page = some sp → sp ≠ 0 →
        Attempt.setPage cfg.target_device (sp - 1)
          ∈ (handle_keypress cfg d o true).2.1)
    ∧ ((handle_keypress cfg d o true).2.2 = true ↔
        ∃ sp, cfg.switch_page = some sp ∧ sp ≠ 0 ∧ o.setPageOk = false) := by
  have h7 := (reset_contract d).2.2.2.2.2.2.1
  have h8 := (reset_contract d).2.2.2.2.2.2.2
  have hfalse : (d.reset).2.2 = false := by
    rcases hb : (d.reset).2.2 with _ | _
    · rfl
    · exact absurd h (h7.mp hb)
  have hnil : (d.reset).2.1 = [] := by rw [h8]; simp [h]
  have hmain : handle_keypress cfg d o true
      = ((brightnessStep cfg (d.reset).1 o).1,
         cmdAttempts cfg ++ keysAttempts cfg ++ writeAttempts cfg
           ++ (brightnessStep cfg (d.reset).1 o).2 ++ switchAttempts cfg,
         switchRaised cfg o) := by
    simp only [handle_keypress, hfalse, hnil, if_true, if_false, Bool.false_eq_true,
      List.map_nil, List.nil_append]
  refine ⟨hmain, ?_, ?_⟩
  · intro sp hsp hne
    rw [hmain]
    simp only [List.mem_append]
    right
    simp [switchAttempts, hsp, hne]
  · rw [hmain]
    simp only [switchRaised]
    rcases hsp : cfg.switch_page with _ | sp
    · simp
    · by_cases hne : sp = 0
      · simp [hne]
      · rcases hok : o.setPageOk with _ | _ <;> simp [hne, hok]

/-- C6 amended witness: every step bound, brightness step failing, page switch
still attempted and its failure escaping. -/
theorem dispatcher_step_isolation_w :
    (Attempt.setPage "D2".data 1
      ∈ (handle_keypress
          { command := some "ls".data, keys := none, write := some "hi".data,
            brightness_change := some 10, switch_page := some 2,
            target_device := "D2".data }
          idleDimmer
          { changeBrightnessOk := false, getBrightness := none, setPageOk := false }
          true).2.1)
    ∧ (handle_keypress
          { command := some "ls".data, keys := none, write := some "hi".data,
            brightness_change := some 10, switch_page := some 2,
            target_device := "D2".data }
          idleDimmer
          { changeBrightnessOk := false, getBrightness := none, setPageOk := false }
          true).2.2 = true := by
  refine ⟨(dispatcher_step_isolation _ idleDimmer _ (by decide)).2.1 2 rfl (by decide), ?_⟩
  exact (dispatcher_step_isolation _ idleDimmer _ (by decide)).2.2.mpr ⟨2, rfl, by decide, rfl⟩

/-- C10: when the brightness-change step is bound but applying the delta
(`api.change_brightness`) or reading back the level (`api.get_brightness`)
raises, the dimmer is left exactly as the initial wake `reset()` left it: its
normal `brightness` keeps its previous value and no further `reset()` touches
its timers — and the subsequent page-switch step still executes for the same
key event. -/
theorem brightness_step_failure_atomic (cfg : ButtonConfig) (d : Dimmer)
    (o : Oracle) (h : d.dimmer_brightness = d.brightness)
    (hfail : o.changeBrightnessOk = false ∨ o.getBrightness = none) :
    (handle_keypress cfg d o true).1 = (d.reset).1
    ∧ (handle_keypress cfg d o true).1.brightness = d.brightness
    ∧ (∀ sp, cfg.switch_page = some sp → sp ≠ 0 →
        Attempt.setPage cfg.target_device (sp - 1)
          ∈ (handle_keypress cfg d o true).2.1) := by
  obtain ⟨hmain, hsw, -⟩ := dispatcher_step_isolation cfg d o h
  have hb : (brightnessStep cfg (d.reset).1 o).1 = (d.reset).1 := by
    simp only [brightnessStep]
    rcases cfg.brightness_change with _ | bc
    · rfl
    · rcases hfail with hf | hf <;> split_ifs <;> simp_all <;> split <;> rfl
  refine ⟨?_, ?_, hsw⟩
  · rw [hmain, hb]
  · rw [hmain, hb]
    exact (reset_contract d).2.2.2.2.1

/-- C10 witness: brightness delta bound, `api.change_brightness` raising;
the dimmer equals the post-wake state and the page switch still runs. -/
theorem brightness_step_failure_atomic_w :
    (handle_keypress
        { command := none, keys := none, write := none,
          brightness_change := some 10, switch_page := some 3,
          target_device := "D1".data }
        idleDimmer
        { changeBrightnessOk := false, getBrightness := some 60, setPageOk := true }
        true).1 = (idleDimmer.reset).1
    ∧ Attempt.setPage "D1".data 2
        ∈ (handle_keypress
            { command := none, keys := none, write := none,
              brightness_change := some 10, switch_page := some 3,
              target_device := "D1".data }
            idleDimmer
            { changeBrightnessOk := false, getBrightness := some 60, setPageOk := true }
            true).2.1 := by
  have h := brightness_step_failure_atomic
    { command := none, keys := none, write := none,
      brightness_change := some 10, switch_page := some 3,
      target_device := "D1".data }
    idleDimmer
    { changeBrightnessOk := false, getBrightness := some 60, setPageOk := true }
    (by decide) (Or.inl rfl)
  exact ⟨h.1, h.2.2 3 rfl (by decide)⟩

/-- Every attempt produced by a delay token is a sleep or a parse-error
report — never a press or a release. -/
theorem delayAttempts_mem (s : Str) (a : Attempt) (ha : a ∈ delayAttempts s) :
    (∃ q, a = Attempt.sleep q) ∨ ∃ g, a = Attempt.reportFloatError g := by
  simp only [delayAttempts] at ha
  split_ifs at ha with h1
  · rcases hp : parseFloat (s.drop 5) with _ | q <;> rw [hp] at ha <;> dsimp only at ha
    · simp only [List.mem_singleton] at ha
      exact Or.inr ⟨_, ha⟩
    · split_ifs at ha with h2
      · simp only [List.mem_singleton] at ha
        exact Or.inl ⟨q, ha⟩
      · simp at ha
  · simp only [List.mem_singleton] at ha
    exact Or.inl ⟨_, ha⟩

/-- C7: for every macro token recognised as a delay: an empty suffix after
the `"delay"` prefix sleeps for the 0.5-second default; a suffix that does
not parse as a float yields a parse-error report and no sleep (delay 0,
reported rather than raised); a delay parsing to 0 produces no attempt at
all; and a delay token never produces a press or release. -/
theorem delay_parse_handling (s : Str) (h : "delay".data.isPrefixOf s = true) :
    (s.drop 5 = [] → pressPhase (Token.str s) = [Attempt.sleep (1 / 2)])
    ∧ (∀ arg, s.drop 5 = arg → arg ≠ [] → parseFloat arg = none →
        pressPhase (Token.str s) = [Attempt.reportFloatError arg])
    ∧ (∀ arg, s.drop 5 = arg → parseFloat arg = some 0 →
        pressPhase (Token.str s) = [])
    ∧ (∀ a ∈ pressPhase (Token.str s),
        (∀ t, a ≠ Attempt.press t) ∧ (∀ t, a ≠ Attempt.release t)) := by
  have hb : pressPhase (Token.str s) = delayAttempts s := by
    simp [pressPhase, h]
  refine ⟨?_, ?_, ?_, ?_⟩
  · intro he
    rw [hb]
    simp only [delayAttempts, he]
    norm_num [mkRat, Rat.normalize]
  · intro arg harg hne hp
    rw [hb]
    subst harg
    simp [delayAttempts, hne, hp]
  · intro arg harg hp
    rw [hb]
    subst harg
    by_cases hne : s.drop 5 = []
    · rw [hne] at hp
      exact absurd hp (by decide)
    · simp [delayAttempts, hne, hp]
  · intro a ha
    rw [hb] at ha
    rcases delayAttempts_mem s a ha with ⟨q, rfl⟩ | ⟨g, rfl⟩ <;>
      exact ⟨fun t => by simp, fun t => by simp⟩

/-- C7 witness: `"delay"` alone sleeps the 0.5 s default; `"delayXYZ"`
reports; `"delay0"` is fully silent. -/
theorem delay_parse_handling_w :
    pressPhase (Token.str "delay".data) = [Attempt.sleep (1 / 2)]
    ∧ pressPhase (Token.str "delayXYZ".data) = [Attempt.reportFloatError "XYZ".data]
    ∧ pressPhase (Token.str "delay0".data) = [] := by
  refine ⟨(delay_parse_handling "delay".data (by decide)).1 (by decide), ?_, ?_⟩
  · exact (delay_parse_handling "delayXYZ".data (by decide)).2.1 "XYZ".data
      (by decide) (by decide) (by decide)
  · exact (delay_parse_handling "delay0".data (by decide)).2.2.1 "0".data
      (by decide) (by decide)

/-- Lowering preserves a `"delay"` prefix (the prefix is already
lower-case). -/
theorem lower_pref_delay (s : Str) (h : "delay".data.isPrefixOf s = true) :
    "delay".data.isPrefixOf (lowerStr s) = true := by
  rw [List.isPrefixOf_iff_prefix] at h ⊢
  have hm := h.map Char.toLower
  have hd : List.map Char.toLower "delay".data = "delay".data := by decide
  rw [hd] at hm
  exact hm

/-- No `pynput` `Key` member name starts with `"delay"`. -/
theorem keyNames_no_delay :
    ∀ s ∈ keyNames, "delay".data.isPrefixOf s = false := by decide

/-- C4 counterexample: in `"a+delay1"` the whole comma-separated segment does
not start with `"delay"`, yet executing it sleeps for one second *inside* the
key section, strictly between pressing and releasing `a`. -/
theorem delay_token_in_key_section_cex :
    pySplit ',' (removeSpaces (pyStrip "a+delay1".data)) = ["a+delay1".data]
    ∧ "delay".data.isPrefixOf "a+delay1".data = false
    ∧ macroTrace "a+delay1".data
        = [Attempt.press (Token.str "a".data), Attempt.sleep 1,
           Attempt.release (Token.str "a".data)] := by
  decide

/-- C4 amended: delay recognition is per `'+'`-separated token, not per
comma-separated segment: a token is treated as a `Delay` exactly when the raw
token case-insensitively starts with `"delay"` (keyword replacement lowers
such tokens, no `Key` member name shadows them, and tokens not starting with
`"delay"` never become delay tokens), so a section may mix delay tokens with
key names and a sleep can occur inside a key section's press phase. -/
theorem delay_token_characterisation (k : Str) :
    Token.isDelay (processKey k) = "delay".data.isPrefixOf (lowerStr k) := by
  unfold processKey replaceSpecialKeys
  split_ifs with h1 h2 h3
  · rw [h1]
    decide
  · rw [h2]
    decide
  · have hlo := lower_pref_delay _ h3
    unfold getattrKey
    split_ifs with h4
    · have := keyNames_no_delay _ h4
      rw [hlo] at this
      exact absurd this (by simp)
    · simp only [Token.isDelay, h3]
  · unfold getattrKey
    split_ifs with h4
    · simp only [Token.isDelay]
      exact (Bool.eq_false_iff.mpr h3).symm
    · simp only [Token.isDelay]
      have hk : "delay".data.isPrefixOf k = false := by
        rcases hkk : "delay".data.isPrefixOf k with _ | _
        · rfl
        · exact absurd (lower_pref_delay k hkk) h3
      rw [hk]
      exact (Bool.eq_false_iff.mpr h3).symm

/-- The tokens whose press was attempted, in trace order. -/
def pressesOf (l : List Attempt) : List Token :=
  l.filterMap fun a => match a with | .press t => some t | _ => none

/-- The tokens whose release was attempted, in trace order. -/
def releasesOf (l : List Attempt) : List Token :=
  l.filterMap fun a => match a with | .release t => some t | _ => none

/-- Whether an attempt is a key press. -/
def isPressA : Attempt → Bool
  | .press _ => true
  | _ => false

/-- Whether an attempt is a key release. -/
def isReleaseA : Attempt → Bool
  | .release _ => true
  | _ => false

/-- The press phase of one token presses exactly the non-delay token. -/
theorem pressesOf_pressPhase (t : Token) :
    pressesOf (pressPhase t) = if t.isDelay then [] else [t] := by
  cases t with
  | key n => rfl
  | str s =>
    by_cases hd : "delay".data.isPrefixOf s
    · simp only [pressPhase, hd, if_pos, Token.isDelay]
      rw [pressesOf, List.filterMap_eq_nil_iff]
      intro a ha
      rcases delayAttempts_mem s a ha with ⟨q, rfl⟩ | ⟨g, rfl⟩ <;> rfl
    · simp [pressPhase, hd, Token.isDelay, pressesOf]

/-- The press phase never releases. -/
theorem releasesOf_pressPhase (t : Token) : releasesOf (pressPhase t) = [] := by
  cases t with
  | key n => rfl
  | str s =>
    by_cases hd : "delay".data.isPrefixOf s
    · simp only [pressPhase, hd, if_pos]
      rw [releasesOf, List.filterMap_eq_nil_iff]
      intro a ha
      rcases delayAttempts_mem s a ha with ⟨q, rfl⟩ | ⟨g, rfl⟩ <;> rfl
    · simp [pressPhase, hd, releasesOf]

/-- The presses of a section trace are exactly its non-delay tokens. -/
theorem pressesOf_execSection (toks : List Token) :
    pressesOf (execSection toks) = toks.filter (fun t => !t.isDelay) := by
  rw [execSection, pressesOf, List.filterMap_append]
  rw [List.filterMap_map]
  have h2 : (toks.filter (fun t => !t.isDelay)).filterMap
      ((fun a => match a with | Attempt.press t => some t | _ => none) ∘ Attempt.release)
      = [] := by
    rw [List.filterMap_eq_nil_iff]
    intro a _
    rfl
  rw [h2, List.append_nil]
  induction toks with
  | nil => rfl
  | cons t ts ih =>
    rw [List.map_cons, List.flatten_cons, List.filterMap_append, List.filter_cons]
    have := pressesOf_pressPhase t
    rw [pressesOf] at this
    rw [this]
    by_cases hd : t.isDelay <;> simp [hd, ih]

/-- The releases of a section trace are exactly its non-delay tokens. -/
theorem releasesOf_execSection (toks : List Token) :
    releasesOf (execSection toks) = toks.filter (fun t => !t.isDelay) := by
  rw [execSection, releasesOf, List.filterMap_append]
  have h1 : ((toks.map pressPhase).flatten).filterMap
      (fun a => match a with | Attempt.release t => some t | _ => none) = [] := by
    rw [List.filterMap_eq_nil_iff]
    intro a ha
    rw [List.mem_flatten] at ha
    obtain ⟨l, hl, hal⟩ := ha
    rw [List.mem_map] at hl
    obtain ⟨t, _, rfl⟩ := hl
    have := releasesOf_pressPhase t
    rw [releasesOf, List.filterMap_eq_nil_iff] at this
    exact this a hal
  rw [h1, List.nil_append, List.filterMap_map]
  induction (toks.filter (fun t => !t.isDelay)) with
  | nil => rfl
  | cons t ts ih => rw [List.filterMap_cons, ih]; rfl

/-- No attempt in a press phase is a release. -/
theorem pressPart_no_release (toks : List Token) (a : Attempt)
    (ha : a ∈ (toks.map pressPhase).flatten) : isReleaseA a = false := by
  rw [List.mem_flatten] at ha
  obtain ⟨l, hl, hal⟩ := ha
  rw [List.mem_map] at hl
  obtain ⟨t, _, rfl⟩ := hl
  cases t with
  | key n =>
    simp only [pressPhase, List.mem_singleton] at hal
    subst hal
    rfl
  | str s =>
    by_cases hd : "delay".data.isPrefixOf s
    · have hm : a ∈ delayAttempts s := by simpa [pressPhase, hd] using hal
      rcases delayAttempts_mem s a hm with ⟨q, rfl⟩ | ⟨g, rfl⟩ <;> rfl
    · simp only [pressPhase, hd, Bool.false_eq_true, if_false, List.mem_singleton] at hal
      subst hal
      rfl

/-- In a concatenation whose first part never releases and whose second part
never presses, every press index precedes every release index. -/
theorem append_press_before_release (P R : List Attempt)
    (hPnr : ∀ a ∈ P, isReleaseA a = false)
    (hRnp : ∀ a ∈ R, isPressA a = false)
    (i j : Nat) (hi : i < (P ++ R).length) (hj : j < (P ++ R).length)
    (hp : isPressA ((P ++ R).get ⟨i, hi⟩) = true)
    (hr : isReleaseA ((P ++ R).get ⟨j, hj⟩) = true) : i < j := by
  have hjP : ¬ j < P.length := by
    intro hjP
    have hjv : (P ++ R).get ⟨j, hj⟩ = P.get ⟨j, hjP⟩ := by
      simp [List.getElem_append_left hjP]
    have := hPnr _ (List.get_mem P j hjP)
    rw [hjv, this] at hr
    exact absurd hr (by simp)
  have hiP : i < P.length := by
    by_contra hiP
    have hle : P.length ≤ i := Nat.le_of_not_lt hiP
    have hilt : i - P.length < R.length := by
      have := hi
      rw [List.length_append] at this
      omega
    have hiv : (P ++ R).get ⟨i, hi⟩ = R.get ⟨i - P.length, hilt⟩ := by
      simp [List.getElem_append_right hle]
    have := hRnp _ (List.get_mem R (i - P.length) hilt)
    rw [hiv, this] at hp
    exact absurd hp (by simp)
  omega

/-- C5: for every key section of every executed macro, the release list
equals the press list (same tokens, same count, same order), every press
index precedes every release index, and the macro trace is the concatenation
of its sections' traces in order (an individual press/release failure is
caught by the source's per-key `try`/`except` and can only print, so it
removes nothing from this trace). -/
theorem press_release_discipline (sec : Str) :
    (pressesOf (execSection (sectionTokens sec))
        = (sectionTokens sec).filter (fun t => !t.isDelay)
      ∧ releasesOf (execSection (sectionTokens sec))
        = (sectionTokens sec).filter (fun t => !t.isDelay))
    ∧ (∀ i j (hi : i < (execSection (sectionTokens sec)).length)
          (hj : j < (execSection (sectionTokens sec)).length),
        isPressA ((execSection (sectionTokens sec)).get ⟨i, hi⟩) = true →
        isReleaseA ((execSection (sectionTokens sec)).get ⟨j, hj⟩) = true →
        i < j)
    ∧ (∀ raw, macroTrace raw
        = ((pySplit ',' (removeSpaces (pyStrip raw))).map
            (fun seg => execSection (sectionTokens seg))).flatten) := by
  refine ⟨⟨pressesOf_execSection _, releasesOf_execSection _⟩, ?_, fun raw => rfl⟩
  intro i j hi hj hp hr
  exact append_press_before_release
    ((List.map pressPhase (sectionTokens sec)).flatten)
    (List.map Attempt.release (List.filter (fun t => !t.isDelay) (sectionTokens sec)))
    (pressPart_no_release (sectionTokens sec))
    (fun a ha => by
      rw [List.mem_map] at ha
      obtain ⟨t, _, rfl⟩ := ha
      rfl)
    i j hi hj hp hr

/-- C8 counterexample: immediately after construction (the empty operation
sequence) with `normalBrightness = 50 ∈ [0,100]`, the current brightness is
the sentinel `-1`, outside 0–100. -/
theorem initial_brightness_sentinel_cex :
    (dinit 5 50).dimmer_brightness = -1
    ∧ ¬ (0 ≤ (dinit 5 50).dimmer_brightness) := by
  decide

/-- Inductive invariant of one dimmer run with normal brightness `b`: either
still in the pristine post-construction state (sentinel `-1`, no timer
objects), or the current brightness is within 0–100. -/
def DimInv (b : Int) (d : Dimmer) : Prop :=
  d.brightness = b ∧
  ((d.dimmer_brightness = -1 ∧ d.timer = none ∧ d.change_timer = none)
    ∨ (0 ≤ d.dimmer_brightness ∧ d.dimmer_brightness ≤ 100))

/-- `reset` re-establishes the invariant from any state with the right
normal brightness. -/
theorem dimInv_reset (b : Int) (hb0 : 0 ≤ b) (hb1 : b ≤ 100) (d : Dimmer)
    (h : d.brightness = b) : DimInv b (d.reset).1 := by
  obtain ⟨-, -, -, -, h5, h6, -, -⟩ := reset_contract d
  exact ⟨h5.trans h, Or.inr ⟨by rw [h6, h]; exact hb0, by rw [h6, h]; exact hb1⟩⟩

/-- `stop` re-establishes the invariant. -/
theorem dimInv_stop (b : Int) (hb0 : 0 ≤ b) (hb1 : b ≤ 100) (d : Dimmer)
    (h : d.brightness = b) : DimInv b (d.stop).1 := by
  simp only [Dimmer.stop]
  exact ⟨h, Or.inr ⟨by simp [h]; omega, by simp [h]; omega⟩⟩

/-- A ramp tick keeps brightness within 0–100 when it starts there. -/
theorem dimInv_cb (b : Int) (d : Dimmer) (h : d.brightness = b)
    (h0 : 0 ≤ d.dimmer_brightness) (h1 : d.dimmer_brightness ≤ 100) :
    DimInv b (d.change_brightness).1 := by
  simp only [Dimmer.change_brightness]
  split_ifs with hz
  · exact ⟨h, Or.inr ⟨by simp; omega, by simp; omega⟩⟩
  · exact ⟨h, Or.inr ⟨h0, h1⟩⟩

/-- `dim` preserves the invariant. -/
theorem dimInv_dim (b : Int) (hb0 : 0 ≤ b) (hb1 : b ≤ 100) (d : Dimmer)
    (h : DimInv b d) (t : Bool) : DimInv b (d.dim t).1 := by
  obtain ⟨hbr, hor⟩ := h
  simp only [Dimmer.dim]
  split_ifs with h1 h2 h3 h4
  · exact ⟨hbr, hor⟩
  · exact dimInv_reset b hb0 hb1 d hbr
  · have hB : 0 ≤ d.dimmer_brightness ∧ d.dimmer_brightness ≤ 100 := by
      rcases hor with ⟨-, hA, -⟩ | hB
      · rw [hA] at h3
        exact absurd h3 (by simp)
      · exact hB
    exact dimInv_cb b { d with timer := some false } hbr hB.1 hB.2
  · have hB : 0 ≤ d.dimmer_brightness ∧ d.dimmer_brightness ≤ 100 := by
      rcases hor with ⟨-, hA, -⟩ | hB
      · rw [hA] at h3
        exact absurd h3 (by simp)
      · exact hB
    exact ⟨hbr, Or.inr hB⟩
  · exact ⟨hbr, hor⟩

/-- Every enabled step of the dimmer state machine preserves the
invariant. -/
theorem dimInv_step (b : Int) (hb0 : 0 ≤ b) (hb1 : b ≤ 100) (d : Dimmer)
    (e : DEvent) (d' : Dimmer) (cs : List Int) (h : DimInv b d)
    (hs : dstep d e = some (d', cs)) : DimInv b d' := by
  cases e with
  | reset =>
    have hp := Option.some.inj hs
    have hd' : d' = (d.reset).1 := (congrArg Prod.fst hp).symm
    rw [hd']
    exact dimInv_reset b hb0 hb1 d h.1
  | stop =>
    have hp := Option.some.inj hs
    have hd' : d' = (d.stop).1 := (congrArg Prod.fst hp).symm
    rw [hd']
    exact dimInv_stop b hb0 hb1 d h.1
  | dim t =>
    have hp := Option.some.inj hs
    have hd' : d' = (d.dim t).1 := (congrArg Prod.fst hp).symm
    rw [hd']
    exact dimInv_dim b hb0 hb1 d h t
  | tickIdle =>
    simp only [dstep] at hs
    split_ifs at hs with ht
    have hp := Option.some.inj hs
    have hd' : d' = (({ d with timer := some false } : Dimmer).change_brightness).1 :=
      (congrArg Prod.fst hp).symm
    have hB : 0 ≤ d.dimmer_brightness ∧ d.dimmer_brightness ≤ 100 := by
      rcases h.2 with ⟨-, hA, -⟩ | hB
      · rw [hA] at ht
        exact absurd ht (by simp)
      · exact hB
    rw [hd']
    exact dimInv_cb b { d with timer := some false } h.1 hB.1 hB.2
  | tickRamp =>
    simp only [dstep] at hs
    split_ifs at hs with ht
    have hp := Option.some.inj hs
    have hd' : d' = (({ d with change_timer := some false } : Dimmer).change_brightness).1 :=
      (congrArg Prod.fst hp).symm
    have hB : 0 ≤ d.dimmer_brightness ∧ d.dimmer_brightness ≤ 100 := by
      rcases h.2 with ⟨-, -, hA⟩ | hB
      · rw [hA] at ht
        exact absurd ht (by simp)
      · exact hB
    rw [hd']
    exact dimInv_cb b { d with change_timer := some false } h.1 hB.1 hB.2

/-- The invariant holds in every reachable state. -/
theorem dimInv_reach (t : Nat) (b : Int) (hb0 : 0 ≤ b) (hb1 : b ≤ 100)
    (d : Dimmer) (hr : DReach (dinit t b) d) : DimInv b d := by
  induction hr with
  | refl => exact ⟨rfl, Or.inl ⟨rfl, rfl, rfl⟩⟩
  | step d e d' cs _ hs ih => exact dimInv_step b hb0 hb1 d e d' cs ih hs

/-- C8 amended: given `normalBrightness` in 0–100, in every state reachable
by the dimmer's operations the current brightness is either the construction
sentinel `-1` (before the first reset/stop) or within 0–100; each ramp tick
from nonzero brightness decrements it by exactly 1 (firing the callback with
the new value), and a tick at 0 stops the ramp without changing brightness —
the floor is never reached in a single jump. -/
theorem brightness_range_invariant (t : Nat) (b : Int) (hb0 : 0 ≤ b)
    (hb1 : b ≤ 100) (d : Dimmer) (hr : DReach (dinit t b) d) :
    (d.dimmer_brightness = -1
      ∨ (0 ≤ d.dimmer_brightness ∧ d.dimmer_brightness ≤ 100))
    ∧ (∀ d' cs, dstep d DEvent.tickRamp = some (d', cs) →
        (d.dimmer_brightness ≠ 0 →
          d'.dimmer_brightness = d.dimmer_brightness - 1
          ∧ cs = [d.dimmer_brightness - 1])
        ∧ (d.dimmer_brightness = 0 →
          d'.dimmer_brightness = d.dimmer_brightness
          ∧ d'.change_timer = none ∧ cs = [])) := by
  refine ⟨((dimInv_reach t b hb0 hb1 d hr).2).imp (fun h => h.1) id, ?_⟩
  intro d' cs hs
  simp only [dstep] at hs
  split_ifs at hs with ht
  have hp := Option.some.inj hs
  constructor
  · intro hz
    have : (({ d with change_timer := some false } : Dimmer).change_brightness)
        = ({ d with
              dimmer_brightness := d.dimmer_brightness - 1,
              change_timer := some true }, [d.dimmer_brightness - 1]) := by
      simp [Dimmer.change_brightness, hz]
    rw [this] at hp
    injection hp with h1 h2
    subst h1
    subst h2
    exact ⟨rfl, rfl⟩
  · intro hz
    have : (({ d with change_timer := some false } : Dimmer).change_brightness)
        = ({ d with change_timer := none }, []) := by
      simp [Dimmer.change_brightness, hz]
    rw [this] at hp
    injection hp with h1 h2
    subst h1
    subst h2
    exact ⟨rfl, rfl, rfl⟩

/-- C8 amended witness: the invariant applied to the freshly constructed
dimmer (empty event sequence) at brightness 50. -/
theorem brightness_range_invariant_w :
    (dinit 5 50).dimmer_brightness = -1
    ∨ (0 ≤ (dinit 5 50).dimmer_brightness
        ∧ (dinit 5 50).dimmer_brightness ≤ 100) :=
  (brightness_range_invariant 5 50 (by decide) (by decide) (dinit 5 50)
    DReach.refl).1
